import Mathlib

/-!
Verification development for the blog-api-server repository: a shallow
embedding of its domain layer (internal/domain/blog.go), in-memory store
(internal/store/store.go), codec helpers, handlers and middleware chain
(internal/api), together with theorems settling the specification claims.

Go strings are modelled as Lean `String`; Go `len` on a string counts
UTF-8 bytes, modelled by `String.utf8ByteSize`.  Go `time.Time` values
are modelled by `Nat` instants (only creation/ordering matters).  Go maps
are modelled as association lists with insert-replacing-existing-key
semantics and the representation invariant that keys are distinct.
-/

namespace BlogApi

/-- goIsSpace models the Go function `unicode.IsSpace`: the ASCII whitespace
characters together with the Unicode White_Space code points. -/
def goIsSpace (c : Char) : Bool :=
  c == ' ' || c == '\t' || c == '\n' || c == '\u000B' || c == '\u000C' ||
  c == '\r' || c == '\u0085' || c == ' ' || c == ' ' ||
  (0x2000 ≤ c.toNat && c.toNat ≤ 0x200A) ||
  c == ' ' || c == ' ' || c == ' ' || c == ' ' ||
  c == '　'

/-- goTrimSpace models the Go function `strings.TrimSpace`: remove leading and
trailing whitespace characters. -/
def goTrimSpace (s : String) : String :=
  String.mk (((s.toList.dropWhile goIsSpace).reverse.dropWhile goIsSpace).reverse)

/-- goLen models the Go builtin `len` applied to a string: the number of UTF-8
bytes. -/
def goLen (s : String) : Nat :=
  s.utf8ByteSize

/-! ### Go map model: association lists with replace-on-insert -/

/-- mapLookup models reading `m[k]` from a Go map: the value at the first
entry whose key is `k`, if any. -/
def mapLookup {α : Type} (k : String) : List (String × α) → Option α
  | [] => none
  | (k₁, v) :: rest => if k₁ = k then some v else mapLookup k rest

/-- mapInsert models the Go map assignment `m[k] = v`: replace the entry
holding key `k` when present, otherwise add a new entry. -/
def mapInsert {α : Type} (k : String) (v : α) : List (String × α) → List (String × α)
  | [] => [(k, v)]
  | (k₁, v₁) :: rest =>
    if k₁ = k then (k, v) :: rest else (k₁, v₁) :: mapInsert k v rest

/-- mapErase models the Go builtin `delete(m, k)`: drop the first entry
holding key `k`. -/
def mapErase {α : Type} (k : String) : List (String × α) → List (String × α)
  | [] => []
  | (k₁, v₁) :: rest =>
    if k₁ = k then rest else (k₁, v₁) :: mapErase k rest

/-- mapKeys lists the keys of the modelled map in entry order. -/
def mapKeys {α : Type} (m : List (String × α)) : List String :=
  m.map (·.1)

theorem mapLookup_mapInsert_self {α : Type} (k : String) (v : α)
    (m : List (String × α)) : mapLookup k (mapInsert k v m) = some v := by
  induction m with
  | nil => simp [mapInsert, mapLookup]
  | cons p rest ih =>
    obtain ⟨k₁, v₁⟩ := p
    by_cases h : k₁ = k
    · simp [mapInsert, h, mapLookup]
    · simp [mapInsert, h, mapLookup, ih]

theorem mapLookup_mapInsert_ne {α : Type} {k k₁ : String} (v : α)
    (m : List (String × α)) (h : k₁ ≠ k) :
    mapLookup k₁ (mapInsert k v m) = mapLookup k₁ m := by
  have h' : ¬ k = k₁ := fun e => h e.symm
  induction m with
  | nil => simp [mapInsert, mapLookup, h']
  | cons p rest ih =>
    obtain ⟨k₂, v₂⟩ := p
    by_cases h₂ : k₂ = k
    · subst h₂
      simp [mapInsert, mapLookup, h']
    · simp only [mapInsert, if_neg h₂, mapLookup]
      by_cases h₃ : k₂ = k₁
      · simp [h₃]
      · simp [h₃, ih]

theorem mapLookup_mapErase_ne {α : Type} {k k₁ : String}
    (m : List (String × α)) (h : k₁ ≠ k) :
    mapLookup k₁ (mapErase k m) = mapLookup k₁ m := by
  have h' : ¬ k = k₁ := fun e => h e.symm
  induction m with
  | nil => simp [mapErase]
  | cons p rest ih =>
    obtain ⟨k₂, v₂⟩ := p
    by_cases h₂ : k₂ = k
    · subst h₂
      simp [mapErase, mapLookup, h']
    · simp only [mapErase, if_neg h₂, mapLookup]
      by_cases h₃ : k₂ = k₁
      · simp [h₃]
      · simp [h₃, ih]

theorem mapLookup_eq_none_of_not_mem {α : Type} {k : String}
    {m : List (String × α)} (h : k ∉ mapKeys m) :
    mapLookup k m = none := by
  induction m with
  | nil => rfl
  | cons p rest ih =>
    obtain ⟨k₁, v₁⟩ := p
    simp only [mapKeys, List.map_cons, List.mem_cons, not_or] at h
    have h₁ : ¬ k₁ = k := fun e => h.1 e.symm
    simp only [mapLookup, if_neg h₁]
    exact ih h.2

theorem mapLookup_mapErase_self {α : Type} {k : String}
    (m : List (String × α)) (h : (mapKeys m).Nodup) :
    mapLookup k (mapErase k m) = none := by
  induction m with
  | nil => rfl
  | cons p rest ih =>
    obtain ⟨k₁, v₁⟩ := p
    simp only [mapKeys, List.map_cons, List.nodup_cons] at h
    by_cases h₁ : k₁ = k
    · subst h₁
      simp only [mapErase, if_pos rfl]
      exact mapLookup_eq_none_of_not_mem h.1
    · simp only [mapErase, if_neg h₁, mapLookup, if_neg h₁]
      exact ih h.2

theorem mem_mapKeys_mapInsert {α : Type} {a k : String} {v : α}
    {m : List (String × α)} :
    a ∈ mapKeys (mapInsert k v m) ↔ a = k ∨ a ∈ mapKeys m := by
  induction m with
  | nil => simp [mapInsert, mapKeys]
  | cons p rest ih =>
    obtain ⟨k₁, v₁⟩ := p
    by_cases h₁ : k₁ = k
    · subst h₁
      simp [mapInsert, mapKeys]
    · simp only [mapInsert, if_neg h₁, mapKeys, List.map_cons, List.mem_cons]
      constructor
      · rintro (hc | hc)
        · exact Or.inr (Or.inl hc)
        · rcases ih.mp hc with hd | hd
          · exact Or.inl hd
          · exact Or.inr (Or.inr hd)
      · rintro (hc | hc | hc)
        · exact Or.inr (ih.mpr (Or.inl hc))
        · exact Or.inl hc
        · exact Or.inr (ih.mpr (Or.inr hc))

theorem mapKeys_mapInsert_nodup {α : Type} {k : String} (v : α)
    {m : List (String × α)} (h : (mapKeys m).Nodup) :
    (mapKeys (mapInsert k v m)).Nodup := by
  induction m with
  | nil => simp [mapInsert, mapKeys]
  | cons p rest ih =>
    obtain ⟨k₁, v₁⟩ := p
    simp only [mapKeys, List.map_cons, List.nodup_cons] at h
    by_cases h₁ : k₁ = k
    · have e : mapInsert k v ((k₁, v₁) :: rest) = (k, v) :: rest := by
        simp [mapInsert, h₁]
      rw [e]
      simp only [mapKeys, List.map_cons, List.nodup_cons]
      exact ⟨h₁ ▸ h.1, h.2⟩
    · simp only [mapInsert, if_neg h₁, mapKeys, List.map_cons, List.nodup_cons]
      refine ⟨fun hmem => ?_, ih h.2⟩
      rcases mem_mapKeys_mapInsert.mp hmem with hc | hc
      · exact h₁ hc
      · exact h.1 hc

theorem mapErase_sublist {α : Type} (k : String) (m : List (String × α)) :
    (mapErase k m).Sublist m := by
  induction m with
  | nil => simp [mapErase]
  | cons p rest ih =>
    obtain ⟨k₁, v₁⟩ := p
    by_cases h₁ : k₁ = k
    · simp only [mapErase, if_pos h₁]
      exact List.sublist_cons_self _ _
    · simp only [mapErase, if_neg h₁]
      exact List.Sublist.cons₂ (k₁, v₁) ih

theorem mapKeys_mapErase_nodup {α : Type} {k : String}
    {m : List (String × α)} (h : (mapKeys m).Nodup) :
    (mapKeys (mapErase k m)).Nodup := by
  exact h.sublist ((mapErase_sublist k m).map _)

/-! ### Domain layer: internal/domain/blog.go -/

/-- Blog models the `Blog` struct: the sole persisted entity.  Timestamps
are modelled as `Nat` instants. -/
structure Blog where
  id : String
  title : String
  content : String
  author : String
  createdAt : Nat
  updatedAt : Nat
  deriving DecidableEq, Repr

/-- CreateBlogRequest models the `CreateBlogRequest` DTO. -/
structure CreateBlogRequest where
  title : String
  content : String
  author : String
  deriving DecidableEq, Repr

/-- UpdateBlogRequest models the `UpdateBlogRequest` DTO: `none` stands
for a nil (absent) field pointer. -/
structure UpdateBlogRequest where
  title : Option String
  content : Option String
  deriving DecidableEq, Repr

/-- Problems is the `map[string]string` of field-level validation
problems, in Go-map model form. -/
abbrev Problems : Type := List (String × String)

/-- createBlogRequestValid embeds `CreateBlogRequest.Valid`: each check
writes into the problems map in the order of the source. -/
def createBlogRequestValid (r : CreateBlogRequest) : Problems :=
  let problems : Problems := []
  let problems :=
    if goTrimSpace r.title = "" then
      mapInsert "title" "title is required" problems
    else problems
  let problems :=
    if goLen r.title > 100 then
      mapInsert "title" "title must be less than 100 characters" problems
    else problems
  let problems :=
    if goTrimSpace r.content = "" then
      mapInsert "content" "content is required" problems
    else problems
  let problems :=
    if goLen r.content > 5000 then
      mapInsert "content" "content must be less than 5000 characters" problems
    else problems
  let problems :=
    if goTrimSpace r.author = "" then
      mapInsert "author" "author is required" problems
    else problems
  let problems :=
    if goLen r.author > 50 then
      mapInsert "author" "author must be less than 50 characters" problems
    else problems
  problems

/-- updateBlogRequestValid embeds `UpdateBlogRequest.Valid`: only present
(non-nil) fields are checked, length before blankness as in the source. -/
def updateBlogRequestValid (r : UpdateBlogRequest) : Problems :=
  let problems : Problems := []
  let problems :=
    match r.title with
    | none => problems
    | some t =>
      let problems :=
        if goLen t > 100 then
          mapInsert "title" "title must be less than 100 characters" problems
        else problems
      if goTrimSpace t = "" then
        mapInsert "title" "title cannot be empty" problems
      else problems
  let problems :=
    match r.content with
    | none => problems
    | some c =>
      let problems :=
        if goLen c > 5000 then
          mapInsert "content" "content must be less than 5000 characters" problems
        else problems
      if goTrimSpace c = "" then
        mapInsert "content" "content cannot be empty" problems
      else problems
  problems

/-- newBlog embeds the `NewBlog` factory.  The generated UUID string and
the current UTC instant are passed explicitly, since `uuid.New()` and
`time.Now()` are effectful. -/
def newBlog (freshId : String) (now : Nat) (req : CreateBlogRequest) : Blog :=
  { id := freshId
    title := goTrimSpace req.title
    content := goTrimSpace req.content
    author := goTrimSpace req.author
    createdAt := now
    updatedAt := now }

/-- blogUpdate embeds `Blog.Update`: overwrite present fields with their
trimmed values and stamp `updatedAt` with the current instant. -/
def blogUpdate (b : Blog) (req : UpdateBlogRequest) (now : Nat) : Blog :=
  let b :=
    match req.title with
    | none => b
    | some t => { b with title := goTrimSpace t }
  let b :=
    match req.content with
    | none => b
    | some c => { b with content := goTrimSpace c }
  { b with updatedAt := now }

/-! ### Store layer: internal/store/store.go

The `MemoryBlogStore` keeps `map[string]*domain.Blog`; every read hands
out a defensive copy, which in a value-semantics embedding is the value
itself.  The `sync.RWMutex` serialises operations, so the sequential
functions below are the observable behaviour of the store. -/

/-- StoreState is the contents of the `blogs` map of `MemoryBlogStore`. -/
abbrev StoreState : Type := List (String × Blog)

/-- StoreErr models the error values of the store; `ErrNotFound` is the only
one. -/
inductive StoreErr where
  | notFound
  deriving DecidableEq, Repr

/-- storeCreate embeds `MemoryBlogStore.Create`: `s.blogs[blog.ID] = blog`,
always succeeding (an upsert). -/
def storeCreate (b : Blog) (s : StoreState) : Option StoreErr × StoreState :=
  (none, mapInsert b.id b s)

/-- storeGetByID embeds `MemoryBlogStore.GetByID`: a copy of the stored
blog, or `ErrNotFound`. -/
def storeGetByID (id : String) (s : StoreState) : Except StoreErr Blog :=
  match mapLookup id s with
  | some b => .ok b
  | none => .error .notFound

/-- storeGetAll embeds `MemoryBlogStore.GetAll`: copies of every stored
blog, in iteration order of the model. -/
def storeGetAll (s : StoreState) : List Blog :=
  s.map (·.2)

/-- storeGetByAuthor embeds `MemoryBlogStore.GetByAuthor`: the loop that
appends a copy of each blog whose author matches exactly. -/
def storeGetByAuthor (author : String) : StoreState → List Blog
  | [] => []
  | p :: rest =>
    if p.2.author = author then p.2 :: storeGetByAuthor author rest
    else storeGetByAuthor author rest

/-- storeUpdate embeds `MemoryBlogStore.Update`: `ErrNotFound` when `id`
is absent, else replace the entry at `id` with `b` wholesale. -/
def storeUpdate (id : String) (b : Blog) (s : StoreState) :
    Option StoreErr × StoreState :=
  match mapLookup id s with
  | none => (some .notFound, s)
  | some _ => (none, mapInsert id b s)

/-- storeDelete embeds `MemoryBlogStore.Delete`: `ErrNotFound` when `id`
is absent, else remove the entry. -/
def storeDelete (id : String) (s : StoreState) :
    Option StoreErr × StoreState :=
  match mapLookup id s with
  | none => (some .notFound, s)
  | some _ => (none, mapErase id s)

/-! ### Codec layer: the encode/decode/decodeValid helpers -/

/-- CodecError models the error values produced by the codec helpers. -/
inductive CodecError where
  | decodeJson
  | invalidProblems (count : Nat)
  deriving DecidableEq, Repr

/-- DecodeValidResult is the Go triple `(T, map[string]string, error)`
returned by `decodeValid`; `value = none` stands for the zero value
returned on decode failure, and `problems = none` for a nil map. -/
structure DecodeValidResult (T : Type) where
  value : Option T
  problems : Option Problems
  err : Option CodecError

/-- decodeValid embeds the generic `decodeValid[T Validator]` helper.
The JSON decode step is represented by its outcome `decoded` (`none` on
malformed input); `valid` is the bound `Valid` method. -/
def decodeValid {T : Type} (valid : T → Problems) :
    Option T → DecodeValidResult T
  | none => ⟨none, none, some .decodeJson⟩
  | some v =>
    let problems := valid v
    if problems.length > 0 then
      ⟨some v, some problems, some (.invalidProblems problems.length)⟩
    else
      ⟨some v, none, none⟩

/-! ### HTTP layer: requests, responses, handlers and middleware -/

/-- Request models the parts of `*http.Request` the handlers consume.
The JSON decoding outcomes of the body for each DTO shape are carried
explicitly (`none` = malformed body for that shape). -/
structure Request where
  method : String
  path : String
  authorQuery : String
  createBody : Option CreateBlogRequest
  updateBody : Option UpdateBlogRequest
  deriving DecidableEq, Repr

/-- RespBody models the Go value written to the response body. -/
inductive RespBody where
  | empty
  | text (s : String)
  | healthOk
  | blogOne (b : Blog)
  | blogList (l : List Blog)
  | errObj (msg : String) (problems : Option Problems)
  deriving DecidableEq, Repr

/-- Response models the observable HTTP response: status code, headers
written via `Header().Set`, and body value. -/
structure Response where
  status : Nat
  headers : List (String × String)
  body : RespBody
  deriving DecidableEq, Repr

/-- jsonCT is the `Content-Type: application/json` header set by
`encode`. -/
def jsonCT : List (String × String) :=
  [("Content-Type", "application/json")]

/-- HandlerOutcome distinguishes a completed response from an uncaught
panic carrying the text of the panic value. -/
inductive HandlerOutcome where
  | ok (resp : Response)
  | panicked (val : String)
  deriving DecidableEq, Repr

/-- Handler is the shape of `http.Handler.ServeHTTP` over the shared
store state. -/
def Handler : Type :=
  Request → StoreState → HandlerOutcome × StoreState

/-- handleHealthz embeds the health handler: a 200 `{"status":"ok"}` with
no method check. -/
def handleHealthz : Handler := fun _ s =>
  (.ok ⟨200, jsonCT, .healthOk⟩, s)

/-- handleBlogsCreate embeds the create handler; `freshId` and `now` are
the effectful inputs of `domain.NewBlog`. -/
def handleBlogsCreate (freshId : String) (now : Nat) : Handler := fun r s =>
  if r.method ≠ "POST" then
    (.ok ⟨405, [], .text "Method not allowed"⟩, s)
  else
    let dv := decodeValid createBlogRequestValid r.createBody
    match dv.err, dv.problems, dv.value with
    | some _, some problems, _ =>
      (.ok ⟨400, jsonCT, .errObj "Validation failed" (some problems)⟩, s)
    | some _, none, _ =>
      (.ok ⟨400, jsonCT, .errObj "Invalid request body" none⟩, s)
    | none, _, some req =>
      let blog := newBlog freshId now req
      let created := storeCreate blog s
      (.ok ⟨201, jsonCT, .blogOne blog⟩, created.2)
    | none, _, none =>
      (.ok ⟨400, jsonCT, .errObj "Invalid request body" none⟩, s)

/-- handleBlogsGet embeds the list/filter handler. -/
def handleBlogsGet : Handler := fun r s =>
  if r.method ≠ "GET" then
    (.ok ⟨405, [], .text "Method not allowed"⟩, s)
  else
    let author := r.authorQuery
    let blogs := if author ≠ "" then storeGetByAuthor author s else storeGetAll s
    (.ok ⟨200, jsonCT, .blogList blogs⟩, s)

/-- handleBlogGet embeds the by-id GET branch. -/
def handleBlogGet (id : String) : Handler := fun _ s =>
  match storeGetByID id s with
  | .error .notFound => (.ok ⟨404, jsonCT, .errObj "Blog not found" none⟩, s)
  | .ok blog => (.ok ⟨200, jsonCT, .blogOne blog⟩, s)

/-- handleBlogUpdate embeds the by-id PUT branch: fetch, decode+validate,
apply in memory, store back. -/
def handleBlogUpdate (now : Nat) (id : String) : Handler := fun r s =>
  match storeGetByID id s with
  | .error .notFound => (.ok ⟨404, jsonCT, .errObj "Blog not found" none⟩, s)
  | .ok existingBlog =>
    let dv := decodeValid updateBlogRequestValid r.updateBody
    match dv.err, dv.problems, dv.value with
    | some _, some problems, _ =>
      (.ok ⟨400, jsonCT, .errObj "Validation failed" (some problems)⟩, s)
    | some _, none, _ =>
      (.ok ⟨400, jsonCT, .errObj "Invalid request body" none⟩, s)
    | none, _, some req =>
      let updated := blogUpdate existingBlog req now
      let res := storeUpdate id updated s
      match res.1 with
      | some .notFound =>
        (.ok ⟨500, jsonCT, .errObj "Failed to update blog" none⟩, res.2)
      | none => (.ok ⟨200, jsonCT, .blogOne updated⟩, res.2)
    | none, _, none =>
      (.ok ⟨400, jsonCT, .errObj "Invalid request body" none⟩, s)

/-- handleBlogDelete embeds the by-id DELETE branch. -/
def handleBlogDelete (id : String) : Handler := fun _ s =>
  let res := storeDelete id s
  match res.1 with
  | some .notFound => (.ok ⟨404, jsonCT, .errObj "Blog not found" none⟩, res.2)
  | none => (.ok ⟨204, [], .empty⟩, res.2)

/-- trimPrefix models the Go function `strings.TrimPrefix`. -/
def trimPrefix (s pre : String) : String :=
  if pre.isPrefixOf s then s.drop pre.length else s

/-- handleBlogsByID embeds the by-id dispatcher: id extraction from the
path, then the method switch. -/
def handleBlogsByID (now : Nat) : Handler := fun r s =>
  let path := trimPrefix r.path "/api/v1/blogs/"
  if path = "" ∨ path.contains '/' then
    (.ok ⟨400, jsonCT, .errObj "Invalid blog ID" none⟩, s)
  else
    let id := path
    if r.method = "GET" then handleBlogGet id r s
    else if r.method = "PUT" then handleBlogUpdate now id r s
    else if r.method = "DELETE" then handleBlogDelete id r s
    else (.ok ⟨405, [], .text "Method not allowed"⟩, s)

/-- addRoutes embeds the `http.ServeMux` wiring of routes.go: exact
matches for the health paths and the collection path (with its method
switch), prefix match for the by-id path, and the ServeMux 404 otherwise. -/
def addRoutes (freshId : String) (now : Nat) : Handler := fun r s =>
  if r.path = "/healthz" ∨ r.path = "/readyz" then
    handleHealthz r s
  else if r.path = "/api/v1/blogs" then
    if r.method = "GET" then handleBlogsGet r s
    else if r.method = "POST" then handleBlogsCreate freshId now r s
    else (.ok ⟨405, [], .text "Method Not Allowed"⟩, s)
  else if "/api/v1/blogs/".isPrefixOf r.path then
    handleBlogsByID now r s
  else
    (.ok ⟨404, [], .text "404 page not found"⟩, s)

/-! ### Middleware chain -/

/-- corsHeaders is the set of permissive CORS headers installed by
`corsMiddleware`. -/
def corsHeaders : List (String × String) :=
  [("Access-Control-Allow-Origin", "*"),
   ("Access-Control-Allow-Methods", "GET, POST, PUT, DELETE, OPTIONS"),
   ("Access-Control-Allow-Headers", "Content-Type, Authorization")]

/-- corsMiddleware embeds the CORS middleware: the headers are set on
every response, and an OPTIONS request is answered 200 with no further
processing. -/
def corsMiddleware (next : Handler) : Handler := fun r s =>
  if r.method = "OPTIONS" then
    (.ok ⟨200, corsHeaders, .empty⟩, s)
  else
    match next r s with
    | (.ok resp, s₁) =>
      (.ok ⟨resp.status,
            resp.headers.foldl (fun acc kv => mapInsert kv.1 kv.2 acc) corsHeaders,
            resp.body⟩, s₁)
    | (.panicked v, s₁) => (.panicked v, s₁)

/-- ratelimitMiddleware embeds the rate-limit middleware, whose current
behaviour is an unconditional pass-through. -/
def ratelimitMiddleware (next : Handler) : Handler := fun r s =>
  next r s

/-- internalErrorResponse is the fixed response written after a recovered
panic. -/
def internalErrorResponse : Response :=
  ⟨500, jsonCT, .errObj "Internal server error" none⟩

/-- panicRecoveryMiddleware embeds the panic-recovery middleware: a
panicking inner handler is converted into the fixed 500 envelope, which
does not depend on the panic value. -/
def panicRecoveryMiddleware (next : Handler) : Handler := fun r s =>
  match next r s with
  | (.ok resp, s₁) => (.ok resp, s₁)
  | (.panicked _, s₁) => (.ok internalErrorResponse, s₁)

/-- loggingMiddleware embeds the logging middleware: it captures the
status code and emits a log line, leaving the response unchanged; the
log sink is not modelled. -/
def loggingMiddleware (next : Handler) : Handler := fun r s =>
  next r s

/-- composedHandler is the middleware chain of `NewServer` around an
arbitrary innermost handler: logging → panic recovery → rate limit →
CORS → router. -/
def composedHandler (router : Handler) : Handler :=
  loggingMiddleware (panicRecoveryMiddleware (ratelimitMiddleware (corsMiddleware router)))

/-! ### Store operation sequences, for the uniqueness invariant -/

/-- StoreOp is one call against the mutating surface of the store. -/
inductive StoreOp where
  | create (b : Blog)
  | update (id : String) (b : Blog)
  | delete (id : String)
  deriving DecidableEq, Repr

/-- applyOp is the state transition of one store call (its returned error
is irrelevant to the reached state). -/
def applyOp (s : StoreState) : StoreOp → StoreState
  | .create b => (storeCreate b s).2
  | .update id b => (storeUpdate id b s).2
  | .delete id => (storeDelete id s).2

/-- runOps is the state reached from the empty store by a call
sequence. -/
def runOps (ops : List StoreOp) : StoreState :=
  ops.foldl applyOp ([] : StoreState)

/-- wfOp says an update call passes a blog whose id field matches the id
argument, as every caller in the repository does (the update handler
stores back the fetched entity, whose id `Blog.Update` never touches). -/
def wfOp : StoreOp → Prop
  | .update id b => b.id = id
  | _ => True

instance : DecidablePred wfOp := fun op => by
  cases op <;> unfold wfOp <;> infer_instance

/-- storeInv is the representation invariant tying the id field of each
stored blog
field to its map key. -/
def storeInv (s : StoreState) : Prop :=
  (mapKeys s).Nodup ∧ ∀ p ∈ s, p.2.id = p.1

theorem mem_mapInsert {α : Type} {p : String × α} {k : String} {v : α}
    {m : List (String × α)} (h : p ∈ mapInsert k v m) : p = (k, v) ∨ p ∈ m := by
  induction m with
  | nil => simpa [mapInsert] using h
  | cons q rest ih =>
    obtain ⟨k₁, v₁⟩ := q
    by_cases h₁ : k₁ = k
    · simp only [mapInsert, if_pos h₁, List.mem_cons] at h
      rcases h with hc | hc
      · exact Or.inl hc
      · exact Or.inr (List.mem_cons_of_mem _ hc)
    · simp only [mapInsert, if_neg h₁, List.mem_cons] at h
      rcases h with hc | hc
      · exact Or.inr (List.mem_cons.mpr (Or.inl hc))
      · rcases ih hc with hd | hd
        · exact Or.inl hd
        · exact Or.inr (List.mem_cons_of_mem _ hd)

theorem storeInv_applyOp {s : StoreState} (h : storeInv s) (op : StoreOp)
    (hwf : wfOp op) : storeInv (applyOp s op) := by
  obtain ⟨hn, hid⟩ := h
  cases op with
  | create b =>
    refine ⟨mapKeys_mapInsert_nodup _ hn, fun p hp => ?_⟩
    rcases mem_mapInsert hp with hc | hc
    · rw [hc]
    · exact hid p hc
  | update id b =>
    simp only [applyOp, storeUpdate]
    cases hl : mapLookup id s with
    | none => exact ⟨hn, hid⟩
    | some b₁ =>
      refine ⟨mapKeys_mapInsert_nodup _ hn, fun p hp => ?_⟩
      rcases mem_mapInsert hp with hc | hc
      · rw [hc]
        exact hwf
      · exact hid p hc
  | delete id =>
    simp only [applyOp, storeDelete]
    cases hl : mapLookup id s with
    | none => exact ⟨hn, hid⟩
    | some b₁ =>
      exact ⟨mapKeys_mapErase_nodup hn,
        fun p hp => hid p ((mapErase_sublist id s).subset hp)⟩

theorem storeInv_runOps (ops : List StoreOp) (h : ∀ op ∈ ops, wfOp op) :
    storeInv (runOps ops) := by
  have aux : ∀ (l : List StoreOp) (s : StoreState), (∀ op ∈ l, wfOp op) →
      storeInv s → storeInv (l.foldl applyOp s) := by
    intro l
    induction l with
    | nil => intro s _ hs; exact hs
    | cons op rest ih =>
      intro s hl hs
      exact ih _ (fun o ho => hl o (List.mem_cons_of_mem _ ho))
        (storeInv_applyOp hs op (hl op (List.mem_cons_self _ _)))
  exact aux ops [] h ⟨List.nodup_nil, by intro p hp; cases hp⟩

/-! ### Validation lookups: per-field characterisation -/

theorem createValid_title_isSome (r : CreateBlogRequest) :
    (mapLookup "title" (createBlogRequestValid r)).isSome
      ↔ (goTrimSpace r.title = "" ∨ goLen r.title > 100) := by
  simp only [createBlogRequestValid]
  split_ifs with h1 h2 h3 h4 h5 h6 <;> simp_all [mapLookup, mapInsert]

theorem createValid_content_isSome (r : CreateBlogRequest) :
    (mapLookup "content" (createBlogRequestValid r)).isSome
      ↔ (goTrimSpace r.content = "" ∨ goLen r.content > 5000) := by
  simp only [createBlogRequestValid]
  split_ifs with h1 h2 h3 h4 h5 h6 <;> simp_all [mapLookup, mapInsert]

theorem createValid_author_isSome (r : CreateBlogRequest) :
    (mapLookup "author" (createBlogRequestValid r)).isSome
      ↔ (goTrimSpace r.author = "" ∨ goLen r.author > 50) := by
  simp only [createBlogRequestValid]
  split_ifs with h1 h2 h3 h4 h5 h6 <;> simp_all [mapLookup, mapInsert]

theorem updateValid_title_isSome (u : UpdateBlogRequest) :
    (mapLookup "title" (updateBlogRequestValid u)).isSome
      ↔ ∃ t, u.title = some t ∧ (goTrimSpace t = "" ∨ goLen t > 100) := by
  obtain ⟨tOpt, cOpt⟩ := u
  cases tOpt <;> cases cOpt <;>
    · simp only [updateBlogRequestValid]
      first
        | (split_ifs <;> simp_all [mapLookup, mapInsert])
        | simp_all [mapLookup, mapInsert]

theorem updateValid_content_isSome (u : UpdateBlogRequest) :
    (mapLookup "content" (updateBlogRequestValid u)).isSome
      ↔ ∃ c, u.content = some c ∧ (goTrimSpace c = "" ∨ goLen c > 5000) := by
  obtain ⟨tOpt, cOpt⟩ := u
  cases tOpt <;> cases cOpt <;>
    · simp only [updateBlogRequestValid]
      first
        | (split_ifs <;> simp_all [mapLookup, mapInsert])
        | simp_all [mapLookup, mapInsert]

/-! ### Claim theorems -/

/-- specFieldProblem restates the per-field rule as the spec words it: the
field is a problem iff it is blank after trimming or its trimmed form
exceeds the limit in characters.  It exists only to be compared with the
source-derived validators. -/
def specFieldProblem (limit : Nat) (t : String) : Prop :=
  goTrimSpace t = "" ∨ (goTrimSpace t).length > limit

/-- c1Input is a title of one letter followed by 100 spaces: valid by the
trimmed-length rule of the spec, rejected by the raw-length check of
the code. -/
def c1Input : CreateBlogRequest :=
  ⟨"a" ++ String.mk (List.replicate 100 ' '), "content text", "author name"⟩

/-- C1 counterexample: `CreateBlogRequest.Valid` reports a title problem
on an input whose trimmed title is neither blank nor over 100 characters,
because the length check runs on the untrimmed string. -/
theorem createValid_title_rejects_spec_valid_input :
    (mapLookup "title" (createBlogRequestValid c1Input)).isSome = true
    ∧ ¬ specFieldProblem 100 c1Input.title := by
  constructor
  · decide
  · unfold specFieldProblem
    decide

/-- C1 (amended): a field is reported exactly when it is blank after
trimming, or its RAW (untrimmed) form exceeds the limit in UTF-8 bytes;
the same per-field rule holds for present fields of update requests. -/
theorem validators_report_iff_blank_or_raw_too_long
    (r : CreateBlogRequest) (u : UpdateBlogRequest) :
    ((mapLookup "title" (createBlogRequestValid r)).isSome
        ↔ (goTrimSpace r.title = "" ∨ goLen r.title > 100))
    ∧ ((mapLookup "content" (createBlogRequestValid r)).isSome
        ↔ (goTrimSpace r.content = "" ∨ goLen r.content > 5000))
    ∧ ((mapLookup "author" (createBlogRequestValid r)).isSome
        ↔ (goTrimSpace r.author = "" ∨ goLen r.author > 50))
    ∧ ((mapLookup "title" (updateBlogRequestValid u)).isSome
        ↔ ∃ t, u.title = some t ∧ (goTrimSpace t = "" ∨ goLen t > 100))
    ∧ ((mapLookup "content" (updateBlogRequestValid u)).isSome
        ↔ ∃ c, u.content = some c ∧ (goTrimSpace c = "" ∨ goLen c > 5000)) :=
  ⟨createValid_title_isSome r, createValid_content_isSome r,
   createValid_author_isSome r, updateValid_title_isSome u,
   updateValid_content_isSome u⟩

/-! ### Claim C2: list handler filtering -/

theorem storeGetByAuthor_eq_filter (a : String) (s : StoreState) :
    storeGetByAuthor a s = (s.filter (fun p => p.2.author == a)).map (·.2) := by
  induction s with
  | nil => rfl
  | cons p rest ih =>
    by_cases h : p.2.author = a
    · simp [storeGetByAuthor, h, List.filter_cons, ih]
    · simp [storeGetByAuthor, h, List.filter_cons, ih]

/-- blogByBob is a stored blog whose author is "bob". -/
def blogByBob : Blog := ⟨"1", "t", "c", "bob", 0, 0⟩

/-- c2State is a store holding only blogByBob. -/
def c2State : StoreState := [("1", blogByBob)]

/-- c2Request is GET /api/v1/blogs with an empty author query value. -/
def c2Request : Request := ⟨"GET", "/api/v1/blogs", "", none, none⟩

/-- C2 counterexample: with the author query value empty, the handler
takes the GetAll branch and returns blogByBob, whose author is not
string-equal to the query value — so the body is not the exact
author-filtered subset. -/
theorem handleBlogsGet_empty_author_not_filtered :
    handleBlogsGet c2Request c2State
      = (.ok ⟨200, jsonCT, .blogList [blogByBob]⟩, c2State)
    ∧ (c2State.filter (fun p => p.2.author == c2Request.authorQuery)).map (·.2) = []
    ∧ blogByBob.author ≠ c2Request.authorQuery := by
  refine ⟨?_, by decide, by decide⟩
  decide

/-- C2 (amended): for every NON-EMPTY author query value the response is
200 with exactly the stored blogs whose author is string-equal to the
query value (the empty list when none match); an empty author value takes
the unfiltered GetAll branch instead. -/
theorem handleBlogsGet_filters_by_author (r : Request) (s : StoreState)
    (hm : r.method = "GET") (ha : r.authorQuery ≠ "") :
    handleBlogsGet r s =
      (.ok ⟨200, jsonCT,
        .blogList ((s.filter (fun p => p.2.author == r.authorQuery)).map (·.2))⟩, s) := by
  simp [handleBlogsGet, hm, ha, storeGetByAuthor_eq_filter]

/-- C2 witness: a two-entry store filtered for "bob" yields exactly the
matching blog, with status 200. -/
theorem handleBlogsGet_filters_by_author_witness :
    handleBlogsGet ⟨"GET", "/api/v1/blogs", "bob", none, none⟩
        [("1", blogByBob), ("2", ⟨"2", "t", "c", "eve", 0, 0⟩)]
      = (.ok ⟨200, jsonCT, .blogList [blogByBob]⟩,
         [("1", blogByBob), ("2", ⟨"2", "t", "c", "eve", 0, 0⟩)]) := by
  have h := handleBlogsGet_filters_by_author
    ⟨"GET", "/api/v1/blogs", "bob", none, none⟩
    [("1", blogByBob), ("2", ⟨"2", "t", "c", "eve", 0, 0⟩)]
    (by decide) (by decide)
  rw [h]
  decide

/-! ### Claim C3: id uniqueness across reachable states -/

/-- blogIdA is a blog whose id field is "a". -/
def blogIdA : Blog := ⟨"a", "ta", "ca", "xa", 0, 0⟩

/-- blogIdB is a blog whose id field is "b". -/
def blogIdB : Blog := ⟨"b", "tb", "cb", "xb", 0, 0⟩

/-- c3Ops stores blogIdA and blogIdB, then updates the entry at key "a"
to hold blogIdB — an argument combination the store accepts. -/
def c3Ops : List StoreOp :=
  [.create blogIdA, .create blogIdB, .update "a" blogIdB]

/-- C3 counterexample: after c3Ops, two stored entries hold blogs with
the same id field "b", so id uniqueness fails for arbitrary arguments. -/
theorem runOps_duplicate_ids :
    runOps c3Ops = [("a", blogIdB), ("b", blogIdB)]
    ∧ ¬ ((runOps c3Ops).map (fun p => p.2.id)).Nodup := by
  constructor
  · decide
  · decide

/-- C3 (amended): in every state reachable from the empty store by
Create, Update and Delete calls in which each Update passes a blog whose
id field equals the id argument — as every caller in this repository
does — the id fields of the stored blogs are pairwise distinct. -/
theorem runOps_wf_ids_nodup (ops : List StoreOp) (h : ∀ op ∈ ops, wfOp op) :
    ((runOps ops).map (fun p => p.2.id)).Nodup := by
  obtain ⟨hn, hid⟩ := storeInv_runOps ops h
  have e : (runOps ops).map (fun p => p.2.id) = mapKeys (runOps ops) :=
    List.map_congr_left fun p hp => hid p hp
  rw [e]
  exact hn

/-- C3 witness: a create/update/delete sequence with matching update
arguments reaches a state with pairwise-distinct ids. -/
theorem runOps_wf_ids_nodup_witness :
    (((runOps [.create blogIdA, .create blogIdB,
        .update "a" ⟨"a", "t2", "c2", "xa", 0, 1⟩,
        .delete "b"]).map (fun p => p.2.id))).Nodup :=
  runOps_wf_ids_nodup _ (by simp [wfOp])

/-! ### Claim C4: Blog.Update frame conditions -/

/-- C4: Blog.Update overwrites exactly the present fields with trimmed
values, leaves id, author and createdAt unchanged, always stamps
updatedAt with the current instant, and strictly advances updatedAt
whenever the clock has advanced since the previous stamp. -/
theorem blogUpdate_frame (b : Blog) (req : UpdateBlogRequest) (now : Nat) :
    (blogUpdate b req now).title
        = (match req.title with | some t => goTrimSpace t | none => b.title)
    ∧ (blogUpdate b req now).content
        = (match req.content with | some c => goTrimSpace c | none => b.content)
    ∧ (blogUpdate b req now).id = b.id
    ∧ (blogUpdate b req now).author = b.author
    ∧ (blogUpdate b req now).createdAt = b.createdAt
    ∧ (blogUpdate b req now).updatedAt = now
    ∧ (b.updatedAt < now → b.updatedAt < (blogUpdate b req now).updatedAt) := by
  obtain ⟨tOpt, cOpt⟩ := req
  cases tOpt <;> cases cOpt <;>
    exact ⟨rfl, rfl, rfl, rfl, rfl, rfl, fun h => h⟩

/-- C4 witness: updating only the title strictly advances updatedAt from
3 to 5 when the clock has advanced. -/
theorem blogUpdate_frame_witness :
    (3 : Nat) < (blogUpdate ⟨"i", "t", "c", "a", 2, 3⟩
      ⟨some " T2 ", none⟩ 5).updatedAt :=
  (blogUpdate_frame ⟨"i", "t", "c", "a", 2, 3⟩ ⟨some " T2 ", none⟩ 5).2.2.2.2.2.2
    (by decide)

/-! ### Claim C5: decodeValid -/

/-- C5: decodeValid short-circuits on decode failure with a non-nil error,
nil problems and no dependence on the Valid method; on a decoded value
with problems it returns that non-nil map and a non-nil error; on a
decoded valid value it returns the value with nil problems and nil
error. -/
theorem decodeValid_spec :
    ∀ (T : Type) (valid : T → Problems),
    (decodeValid valid (none : Option T) = ⟨none, none, some .decodeJson⟩
      ∧ ∀ valid₂ : T → Problems,
          decodeValid valid (none : Option T) = decodeValid valid₂ none)
    ∧ (∀ v : T, valid v ≠ [] →
        decodeValid valid (some v) =
          ⟨some v, some (valid v), some (.invalidProblems (valid v).length)⟩)
    ∧ (∀ v : T, valid v = [] →
        decodeValid valid (some v) = ⟨some v, none, none⟩) := by
  intro T valid
  refine ⟨⟨rfl, fun _ => rfl⟩, fun v h => ?_, fun v h => ?_⟩
  · have hp : (valid v).length > 0 := List.length_pos.mpr h
    simp [decodeValid, hp]
  · simp [decodeValid, h]

/-- c5Good is a create request that passes validation. -/
def c5Good : CreateBlogRequest := ⟨"T", "C", "A"⟩

/-- c5Bad is a create request with a blank title. -/
def c5Bad : CreateBlogRequest := ⟨"", "C", "A"⟩

/-- C5 witness: both validation outcomes of decodeValid at concrete
create requests. -/
theorem decodeValid_spec_witness :
    decodeValid createBlogRequestValid (some c5Good) = ⟨some c5Good, none, none⟩
    ∧ decodeValid createBlogRequestValid (some c5Bad) =
        ⟨some c5Bad, some (createBlogRequestValid c5Bad),
          some (.invalidProblems (createBlogRequestValid c5Bad).length)⟩ :=
  ⟨(decodeValid_spec CreateBlogRequest createBlogRequestValid).2.2 c5Good (by decide),
   (decodeValid_spec CreateBlogRequest createBlogRequestValid).2.1 c5Bad (by decide)⟩

/-! ### Claim C6: Delete/Update on absent ids, Delete on present ids -/

/-- C6: deleting or updating an absent id returns NotFound with the
store unchanged; deleting a present id succeeds, removes exactly that
entry, and a subsequent GetByID of it returns NotFound. -/
theorem storeDelete_storeUpdate_notFound (s : StoreState) (id : String)
    (b : Blog) (hnd : (mapKeys s).Nodup) :
    (mapLookup id s = none →
        storeDelete id s = (some .notFound, s)
      ∧ storeUpdate id b s = (some .notFound, s))
    ∧ (mapLookup id s ≠ none →
        (storeDelete id s).1 = none
      ∧ storeGetByID id (storeDelete id s).2 = .error .notFound
      ∧ ∀ k, k ≠ id → mapLookup k (storeDelete id s).2 = mapLookup k s) := by
  constructor
  · intro h
    exact ⟨by simp [storeDelete, h], by simp [storeUpdate, h]⟩
  · intro h
    obtain ⟨b₁, hb⟩ := Option.ne_none_iff_exists'.mp h
    refine ⟨by simp [storeDelete, hb], ?_, ?_⟩
    · simp [storeDelete, hb, storeGetByID, mapLookup_mapErase_self s hnd]
    · intro k hk
      simp [storeDelete, hb, mapLookup_mapErase_ne s hk]

/-- c6State is a one-entry store holding blogIdA under key "a". -/
def c6State : StoreState := [("a", blogIdA)]

/-- C6 witness: deleting the absent id "z" leaves c6State unchanged with
NotFound, and deleting the present id "a" then fetching it yields
NotFound. -/
theorem storeDelete_storeUpdate_notFound_witness :
    storeDelete "z" c6State = (some .notFound, c6State)
    ∧ storeGetByID "a" (storeDelete "a" c6State).2 = .error .notFound :=
  ⟨((storeDelete_storeUpdate_notFound c6State "z" blogIdB (by decide)).1
      (by decide)).1,
   ((storeDelete_storeUpdate_notFound c6State "a" blogIdB (by decide)).2
      (by decide)).2.1⟩

/-! ### Claim C7: create handler on valid input -/

/-- C7: for a POST whose body decodes to a request passing validation,
the create handler answers 201 with the blog built by NewBlog: non-empty
id (the UUID string is never empty), trimmed fields, and equal creation
and update timestamps. -/
theorem handleBlogsCreate_valid (freshId : String) (now : Nat) (r : Request)
    (s : StoreState) (req : CreateBlogRequest) (hm : r.method = "POST")
    (hb : r.createBody = some req) (hv : createBlogRequestValid req = [])
    (hid : freshId ≠ "") :
    handleBlogsCreate freshId now r s =
      (.ok ⟨201, jsonCT, .blogOne (newBlog freshId now req)⟩,
        mapInsert freshId (newBlog freshId now req) s)
    ∧ (newBlog freshId now req).id ≠ ""
    ∧ (newBlog freshId now req).title = goTrimSpace req.title
    ∧ (newBlog freshId now req).content = goTrimSpace req.content
    ∧ (newBlog freshId now req).author = goTrimSpace req.author
    ∧ (newBlog freshId now req).createdAt = (newBlog freshId now req).updatedAt := by
  refine ⟨?_, hid, rfl, rfl, rfl, rfl⟩
  simp [handleBlogsCreate, hm, hb, decodeValid, hv, storeCreate, newBlog]

/-- c7Request is a POST of a create payload with whitespace to trim. -/
def c7Request : Request :=
  ⟨"POST", "/api/v1/blogs", "", some ⟨" T ", " C ", " A "⟩, none⟩

/-- C7 witness: the concrete created blog for c7Request under a sample
UUID. -/
theorem handleBlogsCreate_valid_witness :
    handleBlogsCreate "123e4567-e89b-12d3-a456-426614174000" 7 c7Request [] =
      (.ok ⟨201, jsonCT,
          .blogOne ⟨"123e4567-e89b-12d3-a456-426614174000", "T", "C", "A", 7, 7⟩⟩,
        [("123e4567-e89b-12d3-a456-426614174000",
          ⟨"123e4567-e89b-12d3-a456-426614174000", "T", "C", "A", 7, 7⟩)]) := by
  have h := (handleBlogsCreate_valid "123e4567-e89b-12d3-a456-426614174000" 7
    c7Request [] ⟨" T ", " C ", " A "⟩ (by decide) (by decide) (by decide)
    (by decide)).1
  rw [h]
  decide

/-! ### Claim C8: panic recovery -/

/-- C8: the wrapped handler never lets a panic escape, and a panicking
inner handler yields status 500 with the fixed "Internal server error"
envelope, whose content does not depend on the panic value. -/
theorem panicRecovery_intercepts (next : Handler) (r : Request)
    (s : StoreState) :
    (∃ resp s₁, panicRecoveryMiddleware next r s = (.ok resp, s₁))
    ∧ ∀ v s₁, next r s = (.panicked v, s₁) →
        panicRecoveryMiddleware next r s = (.ok internalErrorResponse, s₁) := by
  constructor
  · rcases hn : next r s with ⟨out, s₁⟩
    cases out with
    | ok resp => exact ⟨resp, s₁, by simp [panicRecoveryMiddleware, hn]⟩
    | panicked v => exact ⟨internalErrorResponse, s₁, by simp [panicRecoveryMiddleware, hn]⟩
  · intro v s₁ hp
    simp [panicRecoveryMiddleware, hp]

/-- boomHandler is an inner handler that always panics. -/
def boomHandler : Handler := fun _ s => (.panicked "boom", s)

/-- C8 witness: the recovered response for a concrete panicking handler
is the fixed 500 envelope. -/
theorem panicRecovery_intercepts_witness :
    panicRecoveryMiddleware boomHandler c2Request c2State =
      (.ok internalErrorResponse, c2State) :=
  (panicRecovery_intercepts boomHandler c2Request c2State).2 "boom" c2State rfl

/-! ### Claim C9: OPTIONS short-circuit in the composed chain -/

/-- C9: an OPTIONS request, whatever its path, is answered 200 by the
composed middleware chain with exactly the three permissive CORS headers,
without the inner router being consulted (the response is the same for
every router). -/
theorem composedHandler_options (router : Handler) (r : Request)
    (s : StoreState) (h : r.method = "OPTIONS") :
    composedHandler router r s = (.ok ⟨200, corsHeaders, .empty⟩, s) := by
  simp [composedHandler, loggingMiddleware, panicRecoveryMiddleware,
    ratelimitMiddleware, corsMiddleware, h]

/-- c9Request is OPTIONS on the by-id path. -/
def c9Request : Request := ⟨"OPTIONS", "/api/v1/blogs/42", "", none, none⟩

/-- C9 witness: the concrete chain around the real router answers a
concrete OPTIONS request with 200 and the CORS headers. -/
theorem composedHandler_options_witness :
    composedHandler (addRoutes "id1" 0) c9Request [] =
      (.ok ⟨200, corsHeaders, .empty⟩, []) :=
  composedHandler_options (addRoutes "id1" 0) c9Request [] rfl

/-! ### Claim C10: health endpoints ignore the method -/

/-- C10: the router sends every request whose path is /healthz or /readyz
to the health handler, which performs no method check: any method gets
200 with body status ok. -/
theorem addRoutes_health_any_method (freshId : String) (now : Nat)
    (r : Request) (s : StoreState)
    (h : r.path = "/healthz" ∨ r.path = "/readyz") :
    addRoutes freshId now r s = (.ok ⟨200, jsonCT, .healthOk⟩, s) := by
  rcases h with h | h <;> simp [addRoutes, h, handleHealthz]

/-- C10 witness: a PATCH to /healthz is answered 200 with status ok. -/
theorem addRoutes_health_any_method_witness :
    addRoutes "id1" 0 ⟨"PATCH", "/healthz", "", none, none⟩ [] =
      (.ok ⟨200, jsonCT, .healthOk⟩, []) :=
  addRoutes_health_any_method "id1" 0 ⟨"PATCH", "/healthz", "", none, none⟩ []
    (Or.inl rfl)

end BlogApi
